import Mathlib

/-!
Verification development for the Fragnauts spherical-combat core.

Shallow embedding of the orbital movement model (`src/Player.ts`,
`src/Projectile.ts`) and the replication manager
(`MultiplayerManager.ts`). Babylon.js `Vector3` float arithmetic is
modelled over the real numbers; Babylon's `Matrix.RotationAxis`
(axis-angle rotation, axis normalised internally) is modelled by the
Rodrigues rotation formula.  The handedness/sign convention of the
rotation angle does not affect any property stated here.
-/

namespace Fragnauts

/-- Babylon.js `Vector3`, modelled over the reals. -/
@[ext] structure Vec3 where
  x : ℝ
  y : ℝ
  z : ℝ

namespace Vec3

instance : Add Vec3 := ⟨fun a b => ⟨a.x + b.x, a.y + b.y, a.z + b.z⟩⟩
instance : Sub Vec3 := ⟨fun a b => ⟨a.x - b.x, a.y - b.y, a.z - b.z⟩⟩
instance : Neg Vec3 := ⟨fun a => ⟨-a.x, -a.y, -a.z⟩⟩
instance : SMul ℝ Vec3 := ⟨fun r a => ⟨r * a.x, r * a.y, r * a.z⟩⟩
instance : Zero Vec3 := ⟨⟨0, 0, 0⟩⟩

@[simp] theorem add_x (a b : Vec3) : (a + b).x = a.x + b.x := rfl
@[simp] theorem add_y (a b : Vec3) : (a + b).y = a.y + b.y := rfl
@[simp] theorem add_z (a b : Vec3) : (a + b).z = a.z + b.z := rfl
@[simp] theorem sub_x (a b : Vec3) : (a - b).x = a.x - b.x := rfl
@[simp] theorem sub_y (a b : Vec3) : (a - b).y = a.y - b.y := rfl
@[simp] theorem sub_z (a b : Vec3) : (a - b).z = a.z - b.z := rfl
@[simp] theorem neg_x (a : Vec3) : (-a).x = -a.x := rfl
@[simp] theorem neg_y (a : Vec3) : (-a).y = -a.y := rfl
@[simp] theorem neg_z (a : Vec3) : (-a).z = -a.z := rfl
@[simp] theorem smul_x (r : ℝ) (a : Vec3) : (r • a).x = r * a.x := rfl
@[simp] theorem smul_y (r : ℝ) (a : Vec3) : (r • a).y = r * a.y := rfl
@[simp] theorem smul_z (r : ℝ) (a : Vec3) : (r • a).z = r * a.z := rfl
@[simp] theorem zero_x : (0 : Vec3).x = 0 := rfl
@[simp] theorem zero_y : (0 : Vec3).y = 0 := rfl
@[simp] theorem zero_z : (0 : Vec3).z = 0 := rfl

/-- Babylon `Vector3.Dot`. -/
def dot (a b : Vec3) : ℝ := a.x * b.x + a.y * b.y + a.z * b.z

/-- Babylon `Vector3.Cross` (component formula from the Babylon source). -/
def cross (a b : Vec3) : Vec3 :=
  ⟨a.y * b.z - a.z * b.y, a.z * b.x - a.x * b.z, a.x * b.y - a.y * b.x⟩

/-- Squared Euclidean length (`Vector3.lengthSquared`). -/
def lengthSq (a : Vec3) : ℝ := a.x ^ 2 + a.y ^ 2 + a.z ^ 2

/-- Euclidean length (`Vector3.length`). -/
noncomputable def length (a : Vec3) : ℝ := Real.sqrt (lengthSq a)

/-- Babylon `Vector3.normalize`: the zero vector is left unchanged
(`normalizeFromLength` returns `this` when the length is `0`). -/
noncomputable def normalize (a : Vec3) : Vec3 :=
  if length a = 0 then a else (1 / length a) • a

theorem lengthSq_nonneg (a : Vec3) : 0 ≤ lengthSq a := by
  have hx := sq_nonneg a.x
  have hy := sq_nonneg a.y
  have hz := sq_nonneg a.z
  unfold lengthSq; linarith

theorem length_nonneg (a : Vec3) : 0 ≤ length a := Real.sqrt_nonneg _

theorem lengthSq_eq_zero_iff (a : Vec3) : lengthSq a = 0 ↔ a = 0 := by
  constructor
  · intro h
    have hx := sq_nonneg a.x
    have hy := sq_nonneg a.y
    have hz := sq_nonneg a.z
    unfold lengthSq at h
    have hx0 : a.x = 0 := by nlinarith
    have hy0 : a.y = 0 := by nlinarith
    have hz0 : a.z = 0 := by nlinarith
    ext <;> simp [hx0, hy0, hz0]
  · intro h; subst h; simp [lengthSq]

theorem length_eq_zero_iff (a : Vec3) : length a = 0 ↔ a = 0 := by
  unfold length
  rw [Real.sqrt_eq_zero (lengthSq_nonneg a)]
  exact lengthSq_eq_zero_iff a

theorem sq_length (a : Vec3) : length a ^ 2 = lengthSq a :=
  Real.sq_sqrt (lengthSq_nonneg a)

theorem length_smul (r : ℝ) (a : Vec3) : length (r • a) = |r| * length a := by
  unfold length lengthSq
  simp only [smul_x, smul_y, smul_z]
  rw [show (r * a.x) ^ 2 + (r * a.y) ^ 2 + (r * a.z) ^ 2
      = r ^ 2 * (a.x ^ 2 + a.y ^ 2 + a.z ^ 2) by ring]
  rw [Real.sqrt_mul (sq_nonneg r), Real.sqrt_sq_eq_abs]

theorem length_normalize {a : Vec3} (h : a ≠ 0) : length (normalize a) = 1 := by
  have hn : length a ≠ 0 := fun h0 => h ((length_eq_zero_iff a).mp h0)
  have hpos : 0 < length a := lt_of_le_of_ne (length_nonneg a) (Ne.symm hn)
  unfold normalize
  rw [if_neg hn, length_smul]
  rw [abs_of_pos (by positivity)]
  field_simp

theorem normalize_ne_zero {a : Vec3} (h : a ≠ 0) : normalize a ≠ 0 := by
  intro h0
  have := length_normalize h
  rw [h0] at this
  simp [length, lengthSq] at this

theorem normalize_eq_smul {a : Vec3} (h : a ≠ 0) :
    normalize a = (1 / length a) • a := by
  have hn : length a ≠ 0 := fun h0 => h ((length_eq_zero_iff a).mp h0)
  unfold normalize
  rw [if_neg hn]

end Vec3

open Vec3

/-- Babylon `Matrix.RotationAxis(axis, angle)` applied to a point via
`Vector3.TransformCoordinates` / `TransformNormal`: axis-angle rotation by
the Rodrigues formula.  Babylon normalises the axis inside
`RotationAxisToRef`, hence the `normalize`. -/
noncomputable def rotateAxis (axis : Vec3) (θ : ℝ) (p : Vec3) : Vec3 :=
  let u := normalize axis
  (Real.cos θ) • p + (Real.sin θ) • cross u p + ((1 - Real.cos θ) * dot u p) • u

theorem lengthSq_rodrigues (u p : Vec3) (θ : ℝ) (hu : lengthSq u = 1) :
    lengthSq ((Real.cos θ) • p + (Real.sin θ) • cross u p
      + ((1 - Real.cos θ) * dot u p) • u) = lengthSq p := by
  have hcs : Real.cos θ ^ 2 + Real.sin θ ^ 2 = 1 := Real.cos_sq_add_sin_sq θ
  unfold lengthSq at hu ⊢
  unfold cross dot
  simp only [Vec3.add_x, Vec3.add_y, Vec3.add_z, Vec3.smul_x, Vec3.smul_y, Vec3.smul_z]
  linear_combination
    (p.x ^ 2 + p.y ^ 2 + p.z ^ 2
      - (u.x * p.x + u.y * p.y + u.z * p.z) ^ 2) * hcs
    + (Real.sin θ ^ 2 * (p.x ^ 2 + p.y ^ 2 + p.z ^ 2)
      + (1 - Real.cos θ) ^ 2 * (u.x * p.x + u.y * p.y + u.z * p.z) ^ 2) * hu

/-- Rotation about a nonzero axis preserves the Euclidean length
(the axis is normalised inside `rotateAxis`). -/
theorem length_rotateAxis {axis : Vec3} (ha : axis ≠ 0) (θ : ℝ) (p : Vec3) :
    length (rotateAxis axis θ p) = length p := by
  have h1 : length (normalize axis) = 1 := length_normalize ha
  have h2 : lengthSq (normalize axis) = 1 := by
    rw [← sq_length, h1]; norm_num
  unfold rotateAxis length
  rw [lengthSq_rodrigues _ _ _ h2]

/-! ## Player (src/Player.ts) -/

/-- Constants of `Player` (src/Player.ts lines 246-262). -/
def MAX_HEIGHT : ℝ := 3
def JETPACK_FORCE : ℝ := 6
def GRAVITY_FORCE : ℝ := 3
def MAX_FUEL : ℝ := 100
def FUEL_BURN_RATE : ℝ := 16.67
def FUEL_REFILL_RATE : ℝ := 12.67
def movementSpeed : ℝ := 1
/-- Initial fuel level (src/Player.ts line 259). -/
def initialFuel : ℝ := 80
/-- Minimum height above the surface (literal `0.60` in `updatePhysics`). -/
def minHeight : ℝ := 0.60
/-- Planet base radius (src/Planet.ts line 6). -/
def baseRadius : ℝ := 4

/-- The state of a `Player` that the movement / physics code touches.
The mesh orientation (`rotationQuaternion`, rebuilt from an orthonormal
basis in the source) is carried as its `right`/`up`/`forward` basis
vectors; `projectiles` carries the (spawn position, direction) of each
projectile fired. -/
structure Player where
  isRemotePlayer : Bool
  position : Vec3
  right : Vec3
  up : Vec3
  forward : Vec3
  heightAboveSurface : ℝ
  verticalVelocity : ℝ
  fuel : ℝ
  hasFuel : Bool
  jetpackActive : Bool
  projectiles : List (Vec3 × Vec3)

/-- `Player.updateFuel` (src/Player.ts lines 813-836), as a function of the
jetpack flag and the current `(fuel, hasFuel)` pair; returns the new pair.
(The particle-system side effect is visual only and omitted.) -/
noncomputable def updateFuel (jetpackActive : Bool) (fuel : ℝ) (hasFuel : Bool)
    (dt : ℝ) : ℝ × Bool :=
  if jetpackActive then
    let f := fuel - FUEL_BURN_RATE * dt
    if f ≤ 0 then (0, false) else (f, hasFuel)
  else
    let f := fuel + FUEL_REFILL_RATE * dt
    let f2 := if f > MAX_FUEL then MAX_FUEL else f
    if hasFuel = false ∧ f2 ≥ MAX_FUEL * 0.1 then (f2, true) else (f2, hasFuel)

/-- The height clamp of `Player.updatePhysics` (src/Player.ts lines 703-710):
crossing a bound snaps the height to the bound and zeroes the vertical
velocity. -/
noncomputable def clampHeight (hv : ℝ × ℝ) : ℝ × ℝ :=
  if hv.1 < minHeight then (minHeight, 0)
  else if hv.1 > MAX_HEIGHT then (MAX_HEIGHT, 0)
  else hv

/-- The vertical-velocity / height integration of `Player.updatePhysics`
(src/Player.ts lines 692-701), before clamping: returns the integrated
`(height, verticalVelocity)`.  `hasFuel'` is the fuel flag after
`updateFuel` has run (the source checks it after the fuel update). -/
noncomputable def integrateHeight (jetpackActive hasFuel' : Bool)
    (height v dt : ℝ) : ℝ × ℝ :=
  let v1 := if jetpackActive ∧ hasFuel' ∧ height < MAX_HEIGHT
            then v + JETPACK_FORCE * dt else v
  let v2 := v1 - GRAVITY_FORCE * dt
  (height + v2 * dt, v2)

/-- `Player.updatePhysics` (src/Player.ts lines 677-722) for the local
player.  For remote players the source delegates to
`updateRemoteInterpolation` (modelled separately below) and the code
after the guard never runs.  The particle-system and projectile-list
updates are side effects on other objects and do not touch the fields
modelled here. -/
noncomputable def updatePhysicsLocal (R : ℝ) (p : Player) (dt : ℝ) : Player :=
  let fu := updateFuel p.jetpackActive p.fuel p.hasFuel dt
  let hv0 := integrateHeight p.jetpackActive fu.2 p.heightAboveSurface
      p.verticalVelocity dt
  let hv := clampHeight hv0
  let newDistance := R + hv.1
  { p with
    fuel := fu.1
    hasFuel := fu.2
    heightAboveSurface := hv.1
    verticalVelocity := hv.2
    position := newDistance • normalize p.position }

/-- `Player.moveAlongOrbit` (src/Player.ts lines 602-639): tangential
rotation of the position about `cross(crossAxis, toPlanetCenter)`,
re-projection to the orbit radius, and orthonormal rebuild of the
orientation basis (forward preserved, up corrected). -/
noncomputable def moveAlongOrbit (R : ℝ) (p : Player) (crossAxis : Vec3)
    (dt : ℝ) : Player :=
  let toPlanetCenter := normalize (-p.position)
  let orbitDirection := normalize (cross crossAxis toPlanetCenter)
  let angle := movementSpeed * dt
  let orbitRadius := R + p.heightAboveSurface
  let newPosition := rotateAxis orbitDirection angle p.position
  let localUp := (-1 : ℝ) • toPlanetCenter
  let localForward := p.forward
  let localRight := normalize (cross localUp localForward)
  let correctedForward := normalize (cross localRight localUp)
  { p with
    position := orbitRadius • normalize newPosition
    right := localRight
    up := localUp
    forward := correctedForward }

/-- `Player.strafeLeft` (src/Player.ts lines 564-570). -/
noncomputable def strafeLeft (R : ℝ) (p : Player) (dt : ℝ) : Player :=
  if p.isRemotePlayer then p else moveAlongOrbit R p ((-1 : ℝ) • p.right) dt

/-- `Player.strafeRight` (src/Player.ts lines 572-578). -/
noncomputable def strafeRight (R : ℝ) (p : Player) (dt : ℝ) : Player :=
  if p.isRemotePlayer then p else moveAlongOrbit R p p.right dt

/-- `Player.moveForward` (src/Player.ts lines 580-586). -/
noncomputable def moveForward (R : ℝ) (p : Player) (dt : ℝ) : Player :=
  if p.isRemotePlayer then p else moveAlongOrbit R p p.forward dt

/-- `Player.moveBackward` (src/Player.ts lines 588-594). -/
noncomputable def moveBackward (R : ℝ) (p : Player) (dt : ℝ) : Player :=
  if p.isRemotePlayer then p else moveAlongOrbit R p ((-1 : ℝ) • p.forward) dt

/-- `Player.rotate` (src/Player.ts lines 645-671): rotate forward and
right about the local up axis; position unchanged. -/
noncomputable def rotate (p : Player) (deltaRadians : ℝ) : Player :=
  if p.isRemotePlayer then p else
  let toPlanetCenter := normalize (-p.position)
  let localUp := (-1 : ℝ) • toPlanetCenter
  let newForward := rotateAxis localUp deltaRadians p.forward
  let newRight := rotateAxis localUp deltaRadians p.right
  { p with right := newRight, up := localUp, forward := newForward }

/-- `Player.shoot` (src/Player.ts lines 877-911): spawn a projectile half a
unit in front of the player, travelling along the forward vector. -/
noncomputable def shoot (p : Player) : Player :=
  if p.isRemotePlayer then p else
  { p with
    projectiles := p.projectiles ++ [(p.position + (0.5 : ℝ) • p.forward, p.forward)] }

/-! ## Remote-player interpolation (src/Player.ts lines 728-807) -/

/-- Interpolation constants (src/Player.ts lines 282-291). -/
def POSITION_INTERPOLATION_SPEED : ℝ := 15
def SMOOTHING_FACTOR : ℝ := 0.25
def HEIGHT_SMOOTHING_FACTOR : ℝ := 0.2
/-- The velocity-prediction blend weight (literal `0.2` at line 772). -/
def velocityFactor : ℝ := 0.2

/-- The interpolation state of a remote `Player` once the first sample has
arrived (`targetPosition` and `currentInterpolatedPosition` are then
non-null in the source; before that `updateRemoteInterpolation` returns
without doing anything). -/
structure RemoteState where
  currentPos : Vec3
  targetPos : Vec3
  estVel : Option Vec3
  remoteHeight : ℝ
  targetHeight : ℝ
  estVertVel : ℝ

/-- The height interpolation step of `updateRemoteInterpolation`
(src/Player.ts lines 741-755). -/
noncomputable def interpHeight (s : RemoteState) (dt : ℝ) : ℝ :=
  let heightDiff := s.targetHeight - s.remoteHeight
  if |heightDiff| > 0.001 then
    max 0.60 (min (s.remoteHeight + heightDiff * HEIGHT_SMOOTHING_FACTOR
      + s.estVertVel * dt * 0.5) 3)
  else s.remoteHeight

/-- The raw move vector of `updateRemoteInterpolation` before the speed
limit (src/Player.ts lines 766-774): smoothing step toward the target,
plus the velocity-prediction term when an estimated velocity exists and
is non-negligible. -/
noncomputable def interpRawMoveVector (s : RemoteState) : Vec3 :=
  let toTarget := s.targetPos - s.currentPos
  let smoothingAmount := min 1 SMOOTHING_FACTOR
  let mv0 := smoothingAmount • toTarget
  match s.estVel with
  | some ev => if length ev > 0.001 then mv0 + velocityFactor • ev else mv0
  | none => mv0

/-- The speed-limited move vector (src/Player.ts lines 776-779): the raw
move vector, clamped to `POSITION_INTERPOLATION_SPEED * dt`. -/
noncomputable def interpMoveVector (s : RemoteState) (dt : ℝ) : Vec3 :=
  let maxPositionDelta := POSITION_INTERPOLATION_SPEED * dt
  let mv := interpRawMoveVector s
  if length mv > maxPositionDelta then maxPositionDelta • normalize mv else mv

/-- `Player.updateRemoteInterpolation` (src/Player.ts lines 728-807), the
position and height parts.  The rotation slerp (lines 793-803) touches
only the orientation and is independent of the fields modelled here.
After moving by `interpMoveVector` the result is re-projected onto the
sphere at the interpolated height (lines 784-790). -/
noncomputable def updateRemoteInterpolation (R : ℝ) (s : RemoteState)
    (dt : ℝ) : RemoteState :=
  let h' := interpHeight s dt
  let toTarget := s.targetPos - s.currentPos
  let pos' :=
    if length toTarget > 0.0001 then
      (R + h') • normalize (s.currentPos + interpMoveVector s dt)
    else s.currentPos
  { s with currentPos := pos', remoteHeight := h' }

/-! ## Projectile (src/Projectile.ts) -/

/-- Projectile lifespan in milliseconds (src/Projectile.ts line 7). -/
def projectileLifespanMs : ℕ := 800

/-- What `Projectile.update` can see of a scene mesh: its `name`, whether
it is the projectile's own mesh, the `playerUUID` metadata (absent when
`metadata` is missing), and whether it geometrically intersects the
projectile this tick. -/
structure SceneMesh where
  name : String
  isOwnMesh : Bool
  playerUUID : Option String
  intersects : Bool
deriving DecidableEq

/-- The collision filter of `Projectile.update` (src/Projectile.ts lines
114-126): keep player meshes other than the projectile's own mesh, skip
bodies whose `playerUUID` metadata equals the owner's UUID, and require a
geometric intersection. -/
def hitCandidate (ownerUUID : String) (m : SceneMesh) : Bool :=
  if m.name ≠ "player" ∨ m.isOwnMesh then false
  else if m.playerUUID = some ownerUUID then false
  else m.intersects

/-- `Projectile.update` (src/Projectile.ts lines 90-135), reduced to which
body (if any) the `onHit` callback fires on: `none` when inactive or
expired, otherwise the first qualifying intersection `hits[0]`. -/
def projectileHitTarget (isActive : Bool) (now spawnTime : ℕ)
    (ownerUUID : String) (meshes : List SceneMesh) : Option SceneMesh :=
  if isActive = false then none
  else if projectileLifespanMs < now - spawnTime then none
  else (meshes.filter (hitCandidate ownerUUID)).head?

/-! ## MultiplayerManager (src/MultiplayerManager.ts) -/

/-- Staleness threshold for avatar records (listener line 98 and cleanup
line 461). -/
def avatarTTLMs : ℕ := 10000
/-- Staleness threshold for projectile records (listener line 145 and
cleanup line 488). -/
def projectileTTLMs : ℕ := 2000
/-- Client-side auto-removal delay of a published projectile record
(`addProjectile`, `setTimeout` at lines 300-302). -/
def projectileAutoRemoveMs : ℕ := 2000
/-- Staleness threshold for death-effect records (listener line 212 and
cleanup line 514). -/
def effectTTLMs : ℕ := 3000
/-- Publish rate cap (`updateInterval`, line 39). -/
def updateIntervalMs : ℕ := 33

/-- The host re-evaluation of `MultiplayerManager.cleanupStaleData`
(lines 426-447): a client that is already host stays host; otherwise it
becomes host when the players snapshot is empty, has exactly one entry,
or its own UUID is the first key.  `members` is the key list of the
players snapshot in snapshot order. -/
def evalHost (selfUUID : String) (isHost : Bool) (members : List String) : Bool :=
  if isHost then true
  else if members.isEmpty then true
  else if members.length = 1 ∨ members.head? = some selfUUID then true
  else false

/-- One invocation of `cleanupStaleData`, with the `onValue` membership
callback taken as synchronous: returns the new `isHost` flag and whether
the delete sweeps run this invocation (`if (!this.isHost) return` at
line 446). -/
def cleanupStep (selfUUID : String) (isHost : Bool) (members : List String) :
    Bool × Bool :=
  let h := evalHost selfUUID isHost members
  (h, h)

/-- A `Quaternion` as stored on a mesh. -/
structure Quat where
  x : ℝ
  y : ℝ
  z : ℝ
  w : ℝ

/-- The `PlayerData` record written to the store (lines 9-14). -/
structure PlayerData where
  position : Vec3
  rotation : Quat
  isJetpackActive : Bool
  lastUpdate : ℕ

/-- `MultiplayerManager.updatePlayerData` (lines 232-269): rate limiting,
then the missing-orientation guard (lines 244-248) which logs and
returns without writing, then the store write.  Returns the new
`lastUpdateTime` and the store record after the call. -/
def updatePlayerData (now lastUpdateTime : ℕ) (meshPosition : Vec3)
    (meshRotation : Option Quat) (isJetpackActive : Bool)
    (stored : Option PlayerData) : ℕ × Option PlayerData :=
  if now - lastUpdateTime < updateIntervalMs then (lastUpdateTime, stored)
  else
    match meshRotation with
    | none => (now, stored)
    | some q => (now, some ⟨meshPosition, q, isJetpackActive, now⟩)

/-! ## Auxiliary lemmas -/

theorem vec_ne_zero_of_x {v : Vec3} (h : v.x ≠ 0) : v ≠ 0 :=
  fun h0 => h (by rw [h0]; rfl)

theorem vec_ne_zero_of_y {v : Vec3} (h : v.y ≠ 0) : v ≠ 0 :=
  fun h0 => h (by rw [h0]; rfl)

theorem length_mk (a b c : ℝ) :
    length ⟨a, b, c⟩ = Real.sqrt (a ^ 2 + b ^ 2 + c ^ 2) := rfl

theorem sqrt_eq_num {a b : ℝ} (hb : 0 ≤ b) (h : a = b ^ 2) :
    Real.sqrt a = b := by rw [h, Real.sqrt_sq hb]

theorem lt_sqrt_num {a c : ℝ} (hc : 0 ≤ c) (h : c ^ 2 < a) :
    c < Real.sqrt a := (Real.lt_sqrt hc).mpr h

theorem sqrt_le_num {a c : ℝ} (hc : 0 ≤ c) (h : a ≤ c ^ 2) :
    Real.sqrt a ≤ c := by
  calc Real.sqrt a ≤ Real.sqrt (c ^ 2) := Real.sqrt_le_sqrt h
  _ = c := Real.sqrt_sq hc

theorem sqrt_lt_num {a c : ℝ} (hc : 0 < c) (h : a < c ^ 2) :
    Real.sqrt a < c := (Real.sqrt_lt' hc).mpr h

theorem length_ne_zero_iff (a : Vec3) : length a ≠ 0 ↔ a ≠ 0 :=
  not_congr (length_eq_zero_iff a)

theorem smul_smul_vec (r t : ℝ) (v : Vec3) : r • (t • v) = (r * t) • v := by
  ext <;> simp <;> ring

theorem sub_smul_self (r : ℝ) (v : Vec3) : v - r • v = (1 - r) • v := by
  ext <;> simp <;> ring

theorem sub_add_eq_vec (a b v : Vec3) : a - (b + v) = (a - b) - v := by
  ext <;> simp <;> ring

theorem smul_ne_zero_vec {r : ℝ} {v : Vec3} (hr : r ≠ 0) (hv : v ≠ 0) :
    r • v ≠ 0 := by
  rw [← length_ne_zero_iff, length_smul]
  have h1 : |r| ≠ 0 := abs_ne_zero.mpr hr
  have h2 : length v ≠ 0 := (length_ne_zero_iff v).mpr hv
  exact mul_ne_zero h1 h2

theorem clampHeight_mem (hv : ℝ × ℝ) :
    minHeight ≤ (clampHeight hv).1 ∧ (clampHeight hv).1 ≤ MAX_HEIGHT := by
  unfold clampHeight
  split_ifs with h1 h2
  · simp only [minHeight, MAX_HEIGHT]; norm_num
  · simp only [minHeight, MAX_HEIGHT]; norm_num
  · simp only [minHeight, MAX_HEIGHT] at h1 h2 ⊢
    constructor <;> linarith

theorem clampHeight_idem (hv : ℝ × ℝ) :
    clampHeight (clampHeight hv) = clampHeight hv := by
  have hmm : minHeight < MAX_HEIGHT := by
    simp only [minHeight, MAX_HEIGHT]; norm_num
  unfold clampHeight
  split_ifs with h1 h2 <;> simp_all <;> linarith

/-! ## Concrete states used by the witnesses -/

/-- A local player standing on the surface of the radius-4 planet. -/
noncomputable def playerW : Player :=
  ⟨false, ⟨4.6, 0, 0⟩, ⟨0, 1, 0⟩, ⟨1, 0, 0⟩, ⟨0, 0, 1⟩, 0.6, 0, 80, true, false, []⟩

/-- The same state marked as a remote player. -/
noncomputable def remotePlayerW : Player :=
  ⟨true, ⟨4.6, 0, 0⟩, ⟨0, 1, 0⟩, ⟨1, 0, 0⟩, ⟨0, 0, 1⟩, 0.6, 0, 80, true, false, []⟩

/-! ## Claim theorems -/

/-- Claim C2: after every fuel-update tick with any `dt ≥ 0`, fuel stays in
`[0, MAX_FUEL]` (given it starts there, as it initially does), and
`hasFuel` transitions `false → true` only when the resulting fuel is at
least 10% of `MAX_FUEL`, never at a lower fuel level. -/
theorem fuel_invariant_hysteresis (jetpackActive : Bool) (fuel : ℝ)
    (hasF : Bool) (dt : ℝ) (hdt : 0 ≤ dt) (h0 : 0 ≤ fuel)
    (h1 : fuel ≤ MAX_FUEL) :
    (0 ≤ (updateFuel jetpackActive fuel hasF dt).1 ∧
      (updateFuel jetpackActive fuel hasF dt).1 ≤ MAX_FUEL) ∧
    (hasF = false → (updateFuel jetpackActive fuel hasF dt).2 = true →
      MAX_FUEL * 0.1 ≤ (updateFuel jetpackActive fuel hasF dt).1) ∧
    (0 ≤ initialFuel ∧ initialFuel ≤ MAX_FUEL) := by
  have hburn : 0 ≤ FUEL_BURN_RATE * dt := by
    apply mul_nonneg _ hdt
    simp only [FUEL_BURN_RATE]; norm_num
  have hrefill : 0 ≤ FUEL_REFILL_RATE * dt := by
    apply mul_nonneg _ hdt
    simp only [FUEL_REFILL_RATE]; norm_num
  have hMF : (0 : ℝ) ≤ MAX_FUEL := by simp only [MAX_FUEL]; norm_num
  refine ⟨?_, ?_, ?_⟩
  · unfold updateFuel
    cases jetpackActive <;> simp only [Bool.false_eq_true, if_true, if_false] <;>
      split_ifs <;> dsimp only <;> constructor <;> linarith
  · intro hF
    subst hF
    unfold updateFuel
    cases jetpackActive <;> simp only [Bool.false_eq_true, if_true, if_false] <;>
      split_ifs <;> dsimp only <;> intro ht <;>
      first
      | exact absurd ht Bool.false_ne_true
      | tauto
  · simp only [initialFuel, MAX_FUEL]; norm_num

theorem fuel_invariant_hysteresis_witness :
    (0 ≤ (updateFuel true 50 true 1).1 ∧ (updateFuel true 50 true 1).1 ≤ MAX_FUEL) ∧
    (true = false → (updateFuel true 50 true 1).2 = true →
      MAX_FUEL * 0.1 ≤ (updateFuel true 50 true 1).1) ∧
    (0 ≤ initialFuel ∧ initialFuel ≤ MAX_FUEL) :=
  fuel_invariant_hysteresis true 50 true 1 (by norm_num) (by norm_num)
    (by simp only [MAX_FUEL]; norm_num)

/-- Claim C3: every local physics tick clamps the integrated height into
`[minHeight, MAX_HEIGHT]`; crossing a bound snaps the height to that
bound and zeroes the vertical velocity; and re-clamping an
already-clamped value is a no-op. -/
theorem height_clamping (R : ℝ) (p : Player) (dt : ℝ) (hdt : 0 ≤ dt)
    (hv : ℝ × ℝ) :
    (minHeight ≤ (updatePhysicsLocal R p dt).heightAboveSurface ∧
      (updatePhysicsLocal R p dt).heightAboveSurface ≤ MAX_HEIGHT) ∧
    ((integrateHeight p.jetpackActive
        (updateFuel p.jetpackActive p.fuel p.hasFuel dt).2
        p.heightAboveSurface p.verticalVelocity dt).1 < minHeight →
      (updatePhysicsLocal R p dt).heightAboveSurface = minHeight ∧
      (updatePhysicsLocal R p dt).verticalVelocity = 0) ∧
    ((integrateHeight p.jetpackActive
        (updateFuel p.jetpackActive p.fuel p.hasFuel dt).2
        p.heightAboveSurface p.verticalVelocity dt).1 > MAX_HEIGHT →
      (updatePhysicsLocal R p dt).heightAboveSurface = MAX_HEIGHT ∧
      (updatePhysicsLocal R p dt).verticalVelocity = 0) ∧
    clampHeight (clampHeight hv) = clampHeight hv := by
  have hh : (updatePhysicsLocal R p dt).heightAboveSurface
      = (clampHeight (integrateHeight p.jetpackActive
          (updateFuel p.jetpackActive p.fuel p.hasFuel dt).2
          p.heightAboveSurface p.verticalVelocity dt)).1 := rfl
  have hvv : (updatePhysicsLocal R p dt).verticalVelocity
      = (clampHeight (integrateHeight p.jetpackActive
          (updateFuel p.jetpackActive p.fuel p.hasFuel dt).2
          p.heightAboveSurface p.verticalVelocity dt)).2 := rfl
  refine ⟨?_, ?_, ?_, clampHeight_idem hv⟩
  · rw [hh]; exact clampHeight_mem _
  · intro hlow
    rw [hh, hvv]
    unfold clampHeight
    rw [if_pos hlow]
    exact ⟨rfl, rfl⟩
  · intro hhigh
    have hnl : ¬ (integrateHeight p.jetpackActive
        (updateFuel p.jetpackActive p.fuel p.hasFuel dt).2
        p.heightAboveSurface p.verticalVelocity dt).1 < minHeight := by
      simp only [minHeight]
      simp only [MAX_HEIGHT] at hhigh
      linarith
    rw [hh, hvv]
    unfold clampHeight
    rw [if_neg hnl, if_pos hhigh]
    exact ⟨rfl, rfl⟩

theorem height_clamping_witness :
    (minHeight ≤ (updatePhysicsLocal 4 playerW 1).heightAboveSurface ∧
      (updatePhysicsLocal 4 playerW 1).heightAboveSurface ≤ MAX_HEIGHT) ∧
    ((integrateHeight playerW.jetpackActive
        (updateFuel playerW.jetpackActive playerW.fuel playerW.hasFuel 1).2
        playerW.heightAboveSurface playerW.verticalVelocity 1).1 < minHeight →
      (updatePhysicsLocal 4 playerW 1).heightAboveSurface = minHeight ∧
      (updatePhysicsLocal 4 playerW 1).verticalVelocity = 0) ∧
    ((integrateHeight playerW.jetpackActive
        (updateFuel playerW.jetpackActive playerW.fuel playerW.hasFuel 1).2
        playerW.heightAboveSurface playerW.verticalVelocity 1).1 > MAX_HEIGHT →
      (updatePhysicsLocal 4 playerW 1).heightAboveSurface = MAX_HEIGHT ∧
      (updatePhysicsLocal 4 playerW 1).verticalVelocity = 0) ∧
    clampHeight (clampHeight (1, 1)) = clampHeight (1, 1) :=
  height_clamping 4 playerW 1 (by norm_num) (1, 1)

/-- Claim C9: when the local mesh is missing its rotation quaternion,
`updatePlayerData` skips the tick's store write entirely and leaves the
store record unchanged (the total function models the absence of any
propagated exception). -/
theorem missing_orientation_skips_write (now lastUpdateTime : ℕ)
    (meshPosition : Vec3) (isJetpackActive : Bool)
    (stored : Option PlayerData) :
    (updatePlayerData now lastUpdateTime meshPosition none isJetpackActive
      stored).2 = stored := by
  unfold updatePlayerData
  split_ifs <;> rfl

/-- Claim C10: on a player marked remote, every local-control operation —
strafeLeft, strafeRight, moveForward, moveBackward, rotate and shoot —
is a no-op: the whole player state (position, orientation basis,
projectile list) is returned unchanged. -/
theorem remote_player_controls_noop (R : ℝ) (p : Player) (dt δ : ℝ)
    (hr : p.isRemotePlayer = true) :
    strafeLeft R p dt = p ∧ strafeRight R p dt = p ∧
    moveForward R p dt = p ∧ moveBackward R p dt = p ∧
    rotate p δ = p ∧ shoot p = p := by
  unfold strafeLeft strafeRight moveForward moveBackward rotate shoot
  simp [hr]

/-- Claim C1: surface lock.  After a lateral movement step (`moveAlongOrbit`,
called by the four movement methods) the position is re-projected so
that its magnitude equals `planetRadius + heightAboveSurface` exactly,
for every starting position and every `dt`; and after every local
physics tick (`updatePhysics`) the magnitude equals
`planetRadius + heightAboveSurface` for the (clamped) new height.  The
nondegeneracy hypotheses hold for any player on the sphere: the
position is nonzero and the travel axis is not radial. -/
theorem surface_lock (R : ℝ) (p : Player) (crossAxis : Vec3) (dt : ℝ)
    (hpos : p.position ≠ 0)
    (hcross : cross crossAxis (normalize (-p.position)) ≠ 0)
    (hRh : 0 ≤ R + p.heightAboveSurface) (hR : 0 ≤ R) :
    length ((moveAlongOrbit R p crossAxis dt).position)
      = R + p.heightAboveSurface ∧
    length ((updatePhysicsLocal R p dt).position)
      = R + (updatePhysicsLocal R p dt).heightAboveSurface := by
  constructor
  · have hmove : (moveAlongOrbit R p crossAxis dt).position
        = (R + p.heightAboveSurface) •
          normalize (rotateAxis (normalize (cross crossAxis (normalize (-p.position))))
            (movementSpeed * dt) p.position) := rfl
    have hod : normalize (cross crossAxis (normalize (-p.position))) ≠ 0 :=
      normalize_ne_zero hcross
    have hrot : length (rotateAxis (normalize (cross crossAxis (normalize (-p.position))))
        (movementSpeed * dt) p.position) = length p.position :=
      length_rotateAxis hod _ _
    have hnz : rotateAxis (normalize (cross crossAxis (normalize (-p.position))))
        (movementSpeed * dt) p.position ≠ 0 := by
      intro h0
      apply hpos
      rw [← length_eq_zero_iff, ← hrot, h0, length_eq_zero_iff]
    rw [hmove, length_smul, length_normalize hnz, mul_one, abs_of_nonneg hRh]
  · have hphys : (updatePhysicsLocal R p dt).position
        = (R + (updatePhysicsLocal R p dt).heightAboveSurface) •
          normalize p.position := rfl
    have hmem := clampHeight_mem (integrateHeight p.jetpackActive
        (updateFuel p.jetpackActive p.fuel p.hasFuel dt).2
        p.heightAboveSurface p.verticalVelocity dt)
    have hgt : 0 ≤ R + (updatePhysicsLocal R p dt).heightAboveSurface := by
      have hh : (updatePhysicsLocal R p dt).heightAboveSurface
          = (clampHeight (integrateHeight p.jetpackActive
              (updateFuel p.jetpackActive p.fuel p.hasFuel dt).2
              p.heightAboveSurface p.verticalVelocity dt)).1 := rfl
      have hmin : (0 : ℝ) ≤ minHeight := by
        simp only [minHeight]; norm_num
      rw [hh]
      linarith [hmem.1]
    rw [hphys, length_smul, length_normalize hpos, mul_one, abs_of_nonneg hgt]

theorem surface_lock_witness :
    length ((moveAlongOrbit 4 playerW ⟨0, 0, 1⟩ 1).position)
      = 4 + playerW.heightAboveSurface ∧
    length ((updatePhysicsLocal 4 playerW 1).position)
      = 4 + (updatePhysicsLocal 4 playerW 1).heightAboveSurface := by
  have hpos : playerW.position ≠ 0 := by
    apply vec_ne_zero_of_x
    show (4.6 : ℝ) ≠ 0
    norm_num
  have hlen : length (-playerW.position) = 4.6 := by
    show length ⟨-(4.6 : ℝ), -0, -0⟩ = 4.6
    rw [length_mk]
    apply sqrt_eq_num (by norm_num)
    norm_num
  have hnorm : normalize (-playerW.position) = ⟨-1, 0, 0⟩ := by
    have hne : -playerW.position ≠ 0 := by
      apply vec_ne_zero_of_x
      show -(4.6 : ℝ) ≠ 0
      norm_num
    rw [normalize_eq_smul hne, hlen]
    ext <;> simp [playerW] <;> norm_num
  have hcross : cross ⟨0, 0, 1⟩ (normalize (-playerW.position)) ≠ 0 := by
    rw [hnorm]
    apply vec_ne_zero_of_y
    show (1 : ℝ) * (-1) - 0 * 0 ≠ 0
    norm_num
  exact surface_lock 4 playerW ⟨0, 0, 1⟩ 1 hpos hcross
    (by show (0:ℝ) ≤ 4 + 0.6; norm_num) (by norm_num)

/-- Claim C4: the projectile hit callback never fires on a body whose
`playerUUID` metadata equals the projectile's `ownerUUID`, for every
tick and every arrangement (ordering) of scene meshes. -/
theorem projectile_ownership_exclusion (isActive : Bool) (now spawnTime : ℕ)
    (ownerUUID : String) (meshes : List SceneMesh) (m : SceneMesh)
    (h : projectileHitTarget isActive now spawnTime ownerUUID meshes = some m) :
    m.playerUUID ≠ some ownerUUID := by
  unfold projectileHitTarget at h
  split_ifs at h
  have hmem : m ∈ meshes.filter (hitCandidate ownerUUID) :=
    List.mem_of_mem_head? (by rw [h]; rfl)
  have hcand : hitCandidate ownerUUID m = true := (List.mem_filter.mp hmem).2
  intro howner
  unfold hitCandidate at hcand
  rw [if_pos howner] at hcand
  split_ifs at hcand <;> simp_all

/-- A scene with a single intersecting enemy avatar. -/
def enemyMeshW : SceneMesh := ⟨"player", false, some "enemy", true⟩

theorem projectile_ownership_exclusion_witness :
    projectileHitTarget true 100 0 "me" [enemyMeshW] = some enemyMeshW ∧
    enemyMeshW.playerUUID ≠ some "me" :=
  ⟨by decide, projectile_ownership_exclusion true 100 0 "me" [enemyMeshW]
    enemyMeshW (by decide)⟩

/-- A freshly joined remote player: spawned at `(4.6, 0, 0)`, whose
first sample places it on the far side of the planet at maximum height
(the first sample initialises `remoteHeightAboveSurface` to the target
height, src/Player.ts line 977). -/
noncomputable def snapW : RemoteState :=
  ⟨⟨4.6, 0, 0⟩, ⟨-7, 0, 0⟩, none, 3, 3, 0⟩

theorem snapW_currentPos :
    (updateRemoteInterpolation baseRadius snapW 0.016).currentPos = ⟨7, 0, 0⟩ := by
  have hraw : interpRawMoveVector snapW = ⟨-2.9, 0, 0⟩ := by
    unfold interpRawMoveVector
    show (min 1 SMOOTHING_FACTOR) • (snapW.targetPos - snapW.currentPos) = _
    ext <;> simp [snapW, SMOOTHING_FACTOR] <;> norm_num
  have hlenraw : length (⟨-2.9, 0, 0⟩ : Vec3) = 2.9 := by
    rw [length_mk]
    apply sqrt_eq_num (by norm_num)
    norm_num
  have hrawne : (⟨-2.9, 0, 0⟩ : Vec3) ≠ 0 := by
    apply vec_ne_zero_of_x
    show (-2.9 : ℝ) ≠ 0
    norm_num
  have hnormraw : normalize (⟨-2.9, 0, 0⟩ : Vec3) = ⟨-1, 0, 0⟩ := by
    rw [normalize_eq_smul hrawne, hlenraw]
    ext <;> simp <;> norm_num
  have hmv : interpMoveVector snapW 0.016 = ⟨-0.24, 0, 0⟩ := by
    unfold interpMoveVector
    rw [hraw]
    rw [if_pos (by rw [hlenraw]; simp only [POSITION_INTERPOLATION_SPEED]; norm_num)]
    rw [hnormraw]
    ext <;> simp [POSITION_INTERPOLATION_SPEED] <;> norm_num
  have hh : interpHeight snapW 0.016 = 3 := by
    unfold interpHeight
    rw [if_neg (by simp [snapW]; norm_num)]
    rfl
  have htt : snapW.targetPos - snapW.currentPos = ⟨-11.6, 0, 0⟩ := by
    ext <;> simp [snapW] <;> norm_num
  have hdist : length (snapW.targetPos - snapW.currentPos) > 0.0001 := by
    rw [htt, length_mk]
    apply lt_sqrt_num (by norm_num)
    norm_num
  have hsum : snapW.currentPos + interpMoveVector snapW 0.016 = ⟨4.36, 0, 0⟩ := by
    rw [hmv]
    ext <;> simp [snapW] <;> norm_num
  have hsumlen : length (⟨4.36, 0, 0⟩ : Vec3) = 4.36 := by
    rw [length_mk]
    apply sqrt_eq_num (by norm_num)
    norm_num
  have hsumne : (⟨4.36, 0, 0⟩ : Vec3) ≠ 0 := by
    apply vec_ne_zero_of_x
    show (4.36 : ℝ) ≠ 0
    norm_num
  have hnormsum : normalize (⟨4.36, 0, 0⟩ : Vec3) = ⟨1, 0, 0⟩ := by
    rw [normalize_eq_smul hsumne, hsumlen]
    ext <;> simp <;> norm_num
  show (if length (snapW.targetPos - snapW.currentPos) > 0.0001 then
      (baseRadius + interpHeight snapW 0.016) •
        normalize (snapW.currentPos + interpMoveVector snapW 0.016)
    else snapW.currentPos) = _
  rw [if_pos hdist, hh, hsum, hnormsum]
  ext <;> simp [baseRadius] <;> norm_num

/-- A remote player interpolating toward a nearby target while holding a
large estimated velocity from earlier samples. -/
noncomputable def heldVelW : RemoteState :=
  ⟨⟨4.6, 0, 0⟩, ⟨2.76, 3.68, 0⟩, some ⟨-32.7, 11.4, 0⟩, 0.6, 0.6, 0⟩

theorem heldVelW_currentPos :
    (updateRemoteInterpolation baseRadius heldVelW 1).currentPos
      = ⟨-2.76, 3.68, 0⟩ := by
  have hev : length (⟨-32.7, 11.4, 0⟩ : Vec3) > 0.001 := by
    rw [length_mk]
    apply lt_sqrt_num (by norm_num)
    norm_num
  have hraw : interpRawMoveVector heldVelW = ⟨-7, 3.2, 0⟩ := by
    unfold interpRawMoveVector
    show (if length (⟨-32.7, 11.4, 0⟩ : Vec3) > 0.001 then
        (min 1 SMOOTHING_FACTOR) • (heldVelW.targetPos - heldVelW.currentPos)
          + velocityFactor • (⟨-32.7, 11.4, 0⟩ : Vec3)
      else (min 1 SMOOTHING_FACTOR) • (heldVelW.targetPos - heldVelW.currentPos)) = _
    rw [if_pos hev]
    ext <;> simp [heldVelW, SMOOTHING_FACTOR, velocityFactor, min_def] <;> norm_num
  have hlenraw : length (⟨-7, 3.2, 0⟩ : Vec3) ≤ 15 := by
    rw [length_mk]
    apply sqrt_le_num (by norm_num)
    norm_num
  have hmv : interpMoveVector heldVelW 1 = ⟨-7, 3.2, 0⟩ := by
    unfold interpMoveVector
    dsimp only
    rw [hraw]
    rw [if_neg (by
      rw [show POSITION_INTERPOLATION_SPEED * (1 : ℝ) = 15 by
        simp only [POSITION_INTERPOLATION_SPEED]; norm_num]
      exact not_lt.mpr hlenraw)]
  have hh : interpHeight heldVelW 1 = 0.6 := by
    unfold interpHeight
    rw [if_neg (by simp [heldVelW]; norm_num)]
    rfl
  have htt : heldVelW.targetPos - heldVelW.currentPos = ⟨-1.84, 3.68, 0⟩ := by
    ext <;> simp [heldVelW] <;> norm_num
  have hdist : length (heldVelW.targetPos - heldVelW.currentPos) > 0.0001 := by
    rw [htt, length_mk]
    apply lt_sqrt_num (by norm_num)
    norm_num
  have hsum : heldVelW.currentPos + interpMoveVector heldVelW 1
      = ⟨-2.4, 3.2, 0⟩ := by
    rw [hmv]
    ext <;> simp [heldVelW] <;> norm_num
  have hsumlen : length (⟨-2.4, 3.2, 0⟩ : Vec3) = 4 := by
    rw [length_mk]
    apply sqrt_eq_num (by norm_num)
    norm_num
  have hsumne : (⟨-2.4, 3.2, 0⟩ : Vec3) ≠ 0 := by
    apply vec_ne_zero_of_x
    show (-2.4 : ℝ) ≠ 0
    norm_num
  have hnormsum : normalize (⟨-2.4, 3.2, 0⟩ : Vec3) = ⟨-0.6, 0.8, 0⟩ := by
    rw [normalize_eq_smul hsumne, hsumlen]
    ext <;> simp <;> norm_num
  show (if length (heldVelW.targetPos - heldVelW.currentPos) > 0.0001 then
      (baseRadius + interpHeight heldVelW 1) •
        normalize (heldVelW.currentPos + interpMoveVector heldVelW 1)
    else heldVelW.currentPos) = _
  rw [if_pos hdist, hh, hsum, hnormsum]
  ext <;> simp [baseRadius] <;> norm_num

/-- Claim C5 counterexample: with the target position and the estimated
velocity held fixed (no new sample), one `updateRemoteInterpolation`
tick moves the interpolated position strictly farther from the target
(distance grows from √16.928 ≈ 4.11 to 5.52): repeated ticks are not
monotonically closer and the body overshoots past the target. -/
theorem interpolation_starvation_counterexample :
    length ((updateRemoteInterpolation baseRadius heldVelW 1).currentPos
        - heldVelW.targetPos)
      > length (heldVelW.currentPos - heldVelW.targetPos) := by
  rw [heldVelW_currentPos]
  have h1 : (⟨-2.76, 3.68, 0⟩ : Vec3) - heldVelW.targetPos = ⟨-5.52, 0, 0⟩ := by
    ext <;> simp [heldVelW] <;> norm_num
  have h2 : heldVelW.currentPos - heldVelW.targetPos = ⟨1.84, -3.68, 0⟩ := by
    ext <;> simp [heldVelW] <;> norm_num
  rw [h1, h2, length_mk, length_mk,
    sqrt_eq_num (b := 5.52) (by norm_num) (by norm_num)]
  apply sqrt_lt_num (by norm_num)
  norm_num

/-- Claim C5 (amended): under sample starvation with no estimated velocity in
play (`estimatedVelocity` absent), each tick's pre-projection step moves
the interpolated position strictly closer to the held target, never
overshooting it: the new offset is a nonnegative multiple `k < 1` of the
old offset, and the new distance is exactly
`(1 - SMOOTHING_FACTOR)` times the old one or shrinks by the full
`POSITION_INTERPOLATION_SPEED * dt` cap.  A held nonzero estimated
velocity, or the sphere re-projection, can break monotone approach (see
the counterexample). -/
theorem interpolation_starvation (s : RemoteState) (dt : ℝ)
    (hev : s.estVel = none) (hdt : 0 < dt)
    (hdist : length (s.targetPos - s.currentPos) > 0.0001) :
    length (s.targetPos - (s.currentPos + interpMoveVector s dt))
      < length (s.targetPos - s.currentPos) ∧
    (∃ k : ℝ, 0 ≤ k ∧ k < 1 ∧
      s.targetPos - (s.currentPos + interpMoveVector s dt)
        = k • (s.targetPos - s.currentPos)) ∧
    (length (s.targetPos - (s.currentPos + interpMoveVector s dt))
        = (1 - SMOOTHING_FACTOR) * length (s.targetPos - s.currentPos) ∨
      length (s.targetPos - (s.currentPos + interpMoveVector s dt))
        = length (s.targetPos - s.currentPos)
          - POSITION_INTERPOLATION_SPEED * dt) := by
  have hL : (0 : ℝ) < length (s.targetPos - s.currentPos) :=
    lt_trans (by norm_num) hdist
  have hLne : length (s.targetPos - s.currentPos) ≠ 0 := ne_of_gt hL
  have htne : s.targetPos - s.currentPos ≠ 0 :=
    (length_ne_zero_iff _).mp hLne
  have hsf : SMOOTHING_FACTOR = (0.25 : ℝ) := rfl
  have hraw : interpRawMoveVector s
      = SMOOTHING_FACTOR • (s.targetPos - s.currentPos) := by
    unfold interpRawMoveVector
    simp only [hev]
    congr 1
    rw [hsf]
    norm_num [min_def]
  have hlenraw : length (interpRawMoveVector s)
      = SMOOTHING_FACTOR * length (s.targetPos - s.currentPos) := by
    rw [hraw, length_smul]
    congr 1
    rw [hsf]
    norm_num
  have hMpos : 0 < POSITION_INTERPOLATION_SPEED * dt := by
    apply mul_pos _ hdt
    simp only [POSITION_INTERPOLATION_SPEED]; norm_num
  unfold interpMoveVector
  dsimp only
  split_ifs with hcap
  · -- speed limit active: the step shrinks the distance by exactly the cap
    have hML : POSITION_INTERPOLATION_SPEED * dt
        < SMOOTHING_FACTOR * length (s.targetPos - s.currentPos) := by
      rw [← hlenraw]; exact hcap
    have hrawne : interpRawMoveVector s ≠ 0 := by
      rw [hraw, hsf]
      exact smul_ne_zero_vec (by norm_num) htne
    have hnr : normalize (interpRawMoveVector s)
        = (1 / length (s.targetPos - s.currentPos)) •
          (s.targetPos - s.currentPos) := by
      rw [normalize_eq_smul hrawne, hlenraw, hraw, smul_smul_vec]
      congr 1
      rw [hsf]
      field_simp
    have hkey : s.targetPos - (s.currentPos + (POSITION_INTERPOLATION_SPEED * dt) •
        normalize (interpRawMoveVector s))
        = (1 - POSITION_INTERPOLATION_SPEED * dt
            / length (s.targetPos - s.currentPos)) •
          (s.targetPos - s.currentPos) := by
      rw [hnr, smul_smul_vec, sub_add_eq_vec]
      rw [show POSITION_INTERPOLATION_SPEED * dt
          * (1 / length (s.targetPos - s.currentPos))
          = POSITION_INTERPOLATION_SPEED * dt
            / length (s.targetPos - s.currentPos) by ring]
      exact sub_smul_self _ _
    have hq : POSITION_INTERPOLATION_SPEED * dt
        / length (s.targetPos - s.currentPos) < 1 := by
      rw [div_lt_one hL]
      rw [hsf] at hML
      nlinarith
    have hqpos : 0 < POSITION_INTERPOLATION_SPEED * dt
        / length (s.targetPos - s.currentPos) := div_pos hMpos hL
    have hlen : length (s.targetPos - (s.currentPos +
        (POSITION_INTERPOLATION_SPEED * dt) •
          normalize (interpRawMoveVector s)))
        = length (s.targetPos - s.currentPos)
          - POSITION_INTERPOLATION_SPEED * dt := by
      rw [hkey, length_smul, abs_of_nonneg (by linarith)]
      field_simp
    refine ⟨?_, ⟨1 - POSITION_INTERPOLATION_SPEED * dt
        / length (s.targetPos - s.currentPos),
      by linarith, by linarith, hkey⟩, Or.inr hlen⟩
    rw [hlen]
    linarith
  · -- no speed limit: plain exponential smoothing step
    have hkey : s.targetPos - (s.currentPos + interpRawMoveVector s)
        = (1 - SMOOTHING_FACTOR) • (s.targetPos - s.currentPos) := by
      rw [sub_add_eq_vec, hraw]
      exact sub_smul_self _ _
    have hlen : length (s.targetPos - (s.currentPos + interpRawMoveVector s))
        = (1 - SMOOTHING_FACTOR) * length (s.targetPos - s.currentPos) := by
      rw [hkey, length_smul, abs_of_nonneg (by rw [hsf]; norm_num)]
    refine ⟨?_, ⟨1 - SMOOTHING_FACTOR,
      by rw [hsf]; norm_num, by rw [hsf]; norm_num, hkey⟩, Or.inl hlen⟩
    rw [hlen, hsf]
    nlinarith

/-- A remote player under sample starvation with no velocity estimate. -/
noncomputable def starveW : RemoteState :=
  ⟨⟨4.6, 0, 0⟩, ⟨0, 4.6, 0⟩, none, 0.6, 0.6, 0⟩

theorem interpolation_starvation_witness :
    length (starveW.targetPos - (starveW.currentPos + interpMoveVector starveW 1))
      < length (starveW.targetPos - starveW.currentPos) ∧
    (∃ k : ℝ, 0 ≤ k ∧ k < 1 ∧
      starveW.targetPos - (starveW.currentPos + interpMoveVector starveW 1)
        = k • (starveW.targetPos - starveW.currentPos)) ∧
    (length (starveW.targetPos - (starveW.currentPos + interpMoveVector starveW 1))
        = (1 - SMOOTHING_FACTOR) * length (starveW.targetPos - starveW.currentPos) ∨
      length (starveW.targetPos - (starveW.currentPos + interpMoveVector starveW 1))
        = length (starveW.targetPos - starveW.currentPos)
          - POSITION_INTERPOLATION_SPEED * 1) :=
  interpolation_starvation starveW 1 rfl (by norm_num) (by
    have h : starveW.targetPos - starveW.currentPos = ⟨-4.6, 4.6, 0⟩ := by
      ext <;> simp [starveW] <;> norm_num
    rw [h, length_mk]
    apply lt_sqrt_num (by norm_num)
    norm_num)

/-- Claim C6 counterexample: on a reachable state (a remote avatar's first
sample at maximum height on the far side of the planet), a single
`updateRemoteInterpolation` tick with `dt = 0.016` displaces the
interpolated position by 2.4 units — far more than
`POSITION_INTERPOLATION_SPEED * dt = 0.24` — because the re-projection
onto the sphere at the interpolated height is applied after the speed
limit. -/
theorem interpolation_step_bound_counterexample :
    length ((updateRemoteInterpolation baseRadius snapW 0.016).currentPos
      - snapW.currentPos) > POSITION_INTERPOLATION_SPEED * 0.016 := by
  rw [snapW_currentPos]
  have hd : (⟨7, 0, 0⟩ : Vec3) - snapW.currentPos = ⟨2.4, 0, 0⟩ := by
    ext <;> simp [snapW] <;> norm_num
  rw [hd, length_mk, sqrt_eq_num (b := 2.4) (by norm_num) (by norm_num)]
  simp only [POSITION_INTERPOLATION_SPEED]
  norm_num

/-- Claim C6 (amended): the speed-limited move vector applied before the
sphere re-projection never exceeds `POSITION_INTERPOLATION_SPEED * dt`
in length; the bound does not survive the subsequent re-projection (see
the counterexample). -/
theorem interpolation_step_bound (s : RemoteState) (dt : ℝ) (hdt : 0 ≤ dt) :
    length (interpMoveVector s dt) ≤ POSITION_INTERPOLATION_SPEED * dt := by
  have hM : 0 ≤ POSITION_INTERPOLATION_SPEED * dt := by
    apply mul_nonneg _ hdt
    simp only [POSITION_INTERPOLATION_SPEED]; norm_num
  unfold interpMoveVector
  dsimp only
  split_ifs with h
  · have hne : interpRawMoveVector s ≠ 0 := by
      rw [← length_ne_zero_iff]
      intro h0
      rw [h0] at h
      linarith
    rw [length_smul, length_normalize hne, mul_one, abs_of_nonneg hM]
  · exact not_lt.mp h

theorem interpolation_step_bound_witness :
    length (interpMoveVector snapW 1) ≤ POSITION_INTERPOLATION_SPEED * 1 :=
  interpolation_step_bound snapW 1 (by norm_num)

/-- Claim C7 counterexample: a client whose UUID is "b" becomes cleanup leader
while alone, and after a client "a" (which sorts first) joins it still
performs the sweep — leadership is not re-evaluated against the current
membership, refuting the claimed "if and only if". -/
theorem cleanup_leadership_counterexample :
    (cleanupStep "b" (cleanupStep "b" false ["b"]).1 ["a", "b"]).2 = true ∧
    ¬((["a", "b"] : List String) = [] ∨ (["a", "b"] : List String).length = 1 ∨
      (["a", "b"] : List String).head? = some "b") := by
  constructor
  · rfl
  · decide

/-- Claim C7 (amended): a sweep runs exactly when the (re-)evaluated host flag
is set; a client that is already host stays host unconditionally
(leadership is permanent once acquired); a client that is not yet host
becomes host iff the membership snapshot is empty, has exactly one
entry, or its own UUID is the first key. -/
theorem cleanup_leadership (selfUUID : String) (isHost : Bool)
    (members : List String) :
    ((cleanupStep selfUUID isHost members).2
      = (cleanupStep selfUUID isHost members).1) ∧
    (isHost = true → (cleanupStep selfUUID isHost members).1 = true) ∧
    (isHost = false → ((cleanupStep selfUUID isHost members).1 = true ↔
      members = [] ∨ members.length = 1 ∨ members.head? = some selfUUID)) := by
  refine ⟨rfl, ?_, ?_⟩
  · intro h
    subst h
    rfl
  · intro h
    subst h
    unfold cleanupStep evalHost
    simp only [Bool.false_eq_true, if_false]
    by_cases h1 : members = []
    · subst h1; simp
    · have h1' : members.isEmpty = false := by
        cases members with
        | nil => exact absurd rfl h1
        | cons a l => rfl
      rw [h1']
      simp only [Bool.false_eq_true, if_false]
      by_cases h2 : members.length = 1 ∨ members.head? = some selfUUID
      · rw [if_pos h2]; simp [h1, h2]
      · rw [if_neg h2]; simp [h1, h2]

theorem cleanup_leadership_witness :
    ((cleanupStep "a" false ["a", "b"]).2 = (cleanupStep "a" false ["a", "b"]).1) ∧
    (false = true → (cleanupStep "a" false ["a", "b"]).1 = true) ∧
    (false = false → ((cleanupStep "a" false ["a", "b"]).1 = true ↔
      (["a", "b"] : List String) = [] ∨ (["a", "b"] : List String).length = 1 ∨
      (["a", "b"] : List String).head? = some "a")) :=
  cleanup_leadership "a" false ["a", "b"]

/-- Claim C8 counterexample: the simulated projectile lifespan (800 ms) does
not equal the 2,000 ms record TTL. -/
theorem projectile_ttl_mismatch : projectileLifespanMs ≠ projectileTTLMs := by
  decide

/-- Claim C8 (amended): the projectile record TTL and the client-side
auto-removal delay are both 2,000 ms, but the simulated projectile
lifespan is 800 ms — strictly shorter than the record TTL, not equal to
it. -/
theorem projectile_ttl_values :
    projectileLifespanMs = 800 ∧ projectileTTLMs = 2000 ∧
    projectileAutoRemoveMs = 2000 ∧ projectileAutoRemoveMs = projectileTTLMs ∧
    projectileLifespanMs < projectileTTLMs := by
  decide

theorem remote_player_controls_noop_witness :
    strafeLeft 4 remotePlayerW 1 = remotePlayerW ∧
    strafeRight 4 remotePlayerW 1 = remotePlayerW ∧
    moveForward 4 remotePlayerW 1 = remotePlayerW ∧
    moveBackward 4 remotePlayerW 1 = remotePlayerW ∧
    rotate remotePlayerW 0.5 = remotePlayerW ∧
    shoot remotePlayerW = remotePlayerW :=
  remote_player_controls_noop 4 remotePlayerW 1 0.5 rfl

end Fragnauts
